import Mathlib

/-!
Verification of the webhook ingestion and test-resolution pipeline of the
medical dashboard API (Bun + Hono + Drizzle + PostgreSQL backend).

The development shallowly embeds the code of `src/routes/webhook.ts`,
`src/lib/utils.ts` / `src/lib/types.ts` and the database schema
(`src/db/schema.ts`): JSON values become an inductive type, database tables
become lists of row structures, the handler becomes a pure function from an
environment (clock, configured secret, generated order number, injected
storage faults) and a request to a response together with the successor
database state.  Decimal amounts (PostgreSQL `numeric(10,2)`) are modelled
exactly as integer cents; JSON numbers are modelled as integers.
-/

namespace DashboardApi

/-! ## Character helpers (ASCII model of the JavaScript string operations) -/

/-- ASCII whitespace recognizer modelling the whitespace handling of the
JavaScript string operations (space, tab, newline, carriage return). -/
def isWs (c : Char) : Bool :=
  c.toNat = 32 || c.toNat = 9 || c.toNat = 10 || c.toNat = 13

/-- ASCII lower-casing, modelling `String.prototype.toLowerCase` on the
character range the pipeline manipulates. -/
def asciiLower (c : Char) : Char :=
  if 65 ≤ c.toNat && c.toNat ≤ 90 then Char.ofNat (c.toNat + 32) else c

/-- ASCII upper-casing, modelling `String.prototype.toUpperCase`. -/
def asciiUpper (c : Char) : Char :=
  if 97 ≤ c.toNat && c.toNat ≤ 122 then Char.ofNat (c.toNat - 32) else c

/-- ASCII digit recognizer (the `\d` character class of the regexes). -/
def isDigitCh (c : Char) : Bool := 48 ≤ c.toNat && c.toNat ≤ 57

/-- Characters surviving the canonicalisation of test names: lowercase ASCII
letters, digits and whitespace. -/
def isKeepCh (c : Char) : Bool :=
  (97 ≤ c.toNat && c.toNat ≤ 122) || isDigitCh c || isWs c

/-! ## Word splitting (whitespace collapsing) -/

/-- Splits a character list into its maximal whitespace-free words,
accumulator-style so that the definition reduces by `decide`/`rfl`. -/
def splitWordsAux : List Char → List Char → List (List Char)
  | [], acc => if acc.isEmpty then [] else [acc.reverse]
  | c :: rest, acc =>
    if isWs c then
      if acc.isEmpty then splitWordsAux rest []
      else acc.reverse :: splitWordsAux rest []
    else splitWordsAux rest (c :: acc)

/-- The whitespace-separated words of a character list. -/
def splitWords (l : List Char) : List (List Char) := splitWordsAux l []

/-- Joins words with single spaces (no leading or trailing space). -/
def joinWords : List (List Char) → List Char
  | [] => []
  | [w] => w
  | w :: ws => w ++ ' ' :: joinWords ws

/-- Modelled from the spec: the repository imports `normalizeTestName` from
`src/lib/utils` (the webhook route, the tests route and the seed script all
call it) but the function body itself is not among the provided sources.
Section 4.3 of the design describes it as the pure function `canonical_key`:
"lowercase, whitespace-collapsed, punctuation/bracket/dash-stripped string".
The model lower-cases, strips every character that is not a lowercase ASCII
letter, digit or whitespace (hence all punctuation, brackets and dashes),
and collapses whitespace runs to single spaces with no leading/trailing
whitespace. -/
def normalizeTestName (s : String) : String :=
  String.mk (joinWords (splitWords ((s.data.map asciiLower).filter isKeepCh)))

/-! ## Lemmas about word splitting, towards idempotence of the normalizer -/

/-! ## JS string helpers -/

/-- `String.prototype.trim` (ASCII-whitespace model). -/
def jsTrim (s : String) : String :=
  String.mk (((s.data.dropWhile isWs).reverse.dropWhile isWs).reverse)

/-- Splits a character list at every occurrence of `sep`
(`String.prototype.split` semantics: no separator collapsing, empty pieces
are kept, the empty string yields one empty piece). -/
def splitChAux (sep : Char) : List Char → List Char → List String
  | [], acc => [String.mk acc.reverse]
  | c :: rest, acc =>
    if c = sep then String.mk acc.reverse :: splitChAux sep rest []
    else splitChAux sep rest (c :: acc)

/-- `s.split(sep)` for a single-character separator. -/
def splitCh (sep : Char) (s : String) : List String := splitChAux sep s.data []

/-- Whether `needle` occurs as a contiguous segment of `hay`
(the `LIKE '%needle%'` containment test of the fuzzy stage). -/
def hasSeg (needle : List Char) : List Char → Bool
  | [] => needle.isEmpty
  | c :: rest => needle.isPrefixOf (c :: rest) || hasSeg needle rest

/-- The JS replacement of every dash by a space (replace with the global dash regex). -/
def dashToSpace (s : String) : String :=
  String.mk (s.data.map (fun c => if c = '-' then ' ' else c))

/-- The JS replacement of every dash by an underscore. -/
def dashToUnderscore (s : String) : String :=
  String.mk (s.data.map (fun c => if c = '-' then '_' else c))

/-! ## Exact decimal arithmetic (PostgreSQL numeric(10,2) as integer cents) -/

/-- Parses a nonempty all-digit character list. -/
def digitsToNat? : List Char → Option Nat
  | [] => none
  | l =>
    if l.all isDigitCh then
      some (l.foldl (fun n c => n * 10 + (c.toNat - 48)) 0)
    else none

/-- Parses a decimal string of scale at most 2 (the shapes a
`numeric(10,2)` column and the regex price hint can produce) into cents. -/
def dec2cents (s : String) : Option Nat :=
  match splitCh '.' s with
  | [w] => (digitsToNat? w.data).map (· * 100)
  | [w, f] =>
    match digitsToNat? w.data, digitsToNat? f.data with
    | some wn, some fn =>
      match f.data.length with
      | 1 => some (wn * 100 + fn * 10)
      | 2 => some (wn * 100 + fn)
      | _ => none
    | _, _ => none
  | _ => none

/-- The SQL comparison `a::numeric = b::numeric` of the category+price
stage: exact decimal (numeric) equality, not string equality. -/
def centsEqB (a b : String) : Bool :=
  match dec2cents a, dec2cents b with
  | some x, some y => x == y
  | _, _ => false

/-- Cents value of a price string (the database guarantees well-formed
decimals, on which `parseFloat` recovers the exact value). -/
def centsOf (s : String) : Nat := (dec2cents s).getD 0

/-- Two fixed decimal digits (the fractional part of `toFixed(2)`). -/
def pad2c (n : Nat) : String :=
  String.mk [Nat.digitChar (n / 10 % 10), Nat.digitChar (n % 10)]

/-- `v.toFixed(2)` for `v` an exact multiple of a cent: integer part, a
dot, and exactly two fractional digits. -/
def formatCents (c : Nat) : String :=
  toString (c / 100) ++ "." ++ pad2c (c % 100)

/-! ## JSON values

The webhook body after decoding (`c.req.json()` / `c.req.parseBody()`
followed by the `JSON.parse(JSON.stringify(...))` normalisation, which is
the identity on plain JSON data).  JSON numbers are modelled as integers. -/

inductive JVal where
  | null
  | jbool (b : Bool)
  | num (n : Int)
  | str (s : String)
  | arr (elems : List JVal)
  | obj (fields : List (String × JVal))

/-- JavaScript truthiness of a JSON value (objects and arrays are truthy,
`null`, `false`, `0` and the empty string are falsy). -/
def jvTruthy : JVal → Bool
  | .null => false
  | .jbool b => b
  | .num n => n != 0
  | .str s => s != ""
  | .arr _ => true
  | .obj _ => true

/-- Joins strings with commas (JS array stringification separator). -/
def joinComma : List String → String
  | [] => ""
  | [s] => s
  | s :: rest => s ++ "," ++ joinComma rest

mutual

/-- `String(v)` for a JSON value. -/
def jsToString : JVal → String
  | .null => "null"
  | .jbool b => if b then "true" else "false"
  | .num n => toString n
  | .str s => s
  | .arr l => joinComma (jsToStringList l)
  | .obj _ => "[object Object]"

/-- `String(v)` mapped over a list of JSON values. -/
def jsToStringList : List JVal → List String
  | [] => []
  | v :: rest => jsToString v :: jsToStringList rest

end

/-- Property lookup on an object's key/value list.  JavaScript object
semantics: a later occurrence of a key overrides an earlier one (this is
what makes the model of object spread an append, below). -/
def jlookup (kvs : List (String × JVal)) (k : String) : Option JVal :=
  ((kvs.filter (fun p => p.1 == k)).getLast?).map (fun p => p.2)

/-- The key/value fields of an object value (property access on a
non-object primitive yields no own properties). -/
def objFields : JVal → List (String × JVal)
  | .obj l => l
  | _ => []

/-! ## Price-suffix parsing (stage 1 of the test resolver)

`webhook.ts` line 107: the raw test name is matched against the anchored
regex with a greedy head group, a dash-dollar separator and a digit tail;
the greedy head means the split happens at the last dash-dollar-digits
suffix of the string. -/

/-- The regex match: splits a raw name of the shape name-dollar-digits into
the name part and the digit part; no match yields `none`. -/
def priceSuffixSplit (raw : String) : Option (String × String) :=
  let r := raw.data.reverse
  let ds := r.takeWhile isDigitCh
  if ds.isEmpty then none
  else
    match r.drop ds.length with
    | '$' :: '-' :: restRev => some (String.mk restRev.reverse, String.mk ds.reverse)
    | _ => none

/-- `namePart` of webhook.ts line 108: the head group with dashes replaced
by spaces when the regex matched, the whole raw name otherwise. -/
def namePartOf (raw : String) : String :=
  match priceSuffixSplit raw with
  | some (n, _) => dashToSpace n
  | none => raw

/-- `pricePart` of webhook.ts line 109. -/
def priceHintOf (raw : String) : Option String :=
  (priceSuffixSplit raw).map (fun p => p.2)

/-- `normalizedName` of webhook.ts line 112. -/
def normKeyOf (raw : String) : String := normalizeTestName (namePartOf raw)

/-! ## Test catalog and the multi-stage resolver -/

/-- A row of the `test_catalog` table (prices are the decimal strings the
driver returns for `numeric(10,2)`). -/
structure CatalogEntry where
  id : Nat
  testName : String
  searchName : String
  category : String
  price : String
  isActive : Bool
  deriving DecidableEq

/-- Stage 2 (webhook.ts lines 115-117): first catalog row whose stored
`searchName` equals the normalized name. -/
def exactStage (catalog : List CatalogEntry) (normalizedName : String) : Option CatalogEntry :=
  catalog.find? (fun t => t.searchName == normalizedName)

/-- Stage 3 (webhook.ts lines 120-129): first catalog row whose category
equals the dash-to-underscore normalized hint and whose price equals the
price hint under numeric (cents) equality.  The source places no condition
on `isActive`. -/
def catPriceStage (catalog : List CatalogEntry) (categoryHint pricePart : String) : Option CatalogEntry :=
  catalog.find? (fun t => t.category == dashToUnderscore categoryHint && centsEqB t.price pricePart)

/-- Stage 4 (webhook.ts lines 132-136): first catalog row whose
`searchName` contains the normalized name as a substring (the SQL LIKE
pattern wraps the name in percent wildcards on both sides). -/
def fuzzyStage (catalog : List CatalogEntry) (normalizedName : String) : Option CatalogEntry :=
  catalog.find? (fun t => hasSeg normalizedName.data t.searchName.data)

/-- The guard of line 120: stage 3 runs only when both a price hint and a
category hint are present (`some` coincides with the truthiness test: an
extracted category is a nonempty trimmed string and a price hint is a
nonempty digit string, both truthy). -/
def catPriceAttempt (catalog : List CatalogEntry) (categoryHint : Option String)
    (raw : String) : Option CatalogEntry :=
  match priceHintOf raw, categoryHint with
  | some p, some cat => catPriceStage catalog cat p
  | _, _ => none

/-- The per-name resolution chain of webhook.ts lines 105-136: exact
normalized match, then category+price, then fuzzy substring; each later
stage runs only when every earlier stage produced nothing. -/
def resolveTest (catalog : List CatalogEntry) (categoryHint : Option String) (raw : String) :
    Option CatalogEntry :=
  let c1 := exactStage catalog (normKeyOf raw)
  let c2 :=
    match c1 with
    | some t => some t
    | none => catPriceAttempt catalog categoryHint raw
  match c2 with
  | some t => some t
  | none => fuzzyStage catalog (normKeyOf raw)

/-! ## Form slug normalisation (`src/lib/utils.ts` normalizeFormSlug) -/

/-- Lower-cases, then replaces every character outside lowercase letters,
digits, dash and underscore by a dash. -/
def slugMap (c : Char) : Char :=
  let lc := asciiLower c
  if (97 ≤ lc.toNat && lc.toNat ≤ 122) || isDigitCh lc || lc = '-' || lc = '_' then lc
  else '-'

/-- Collapses runs of dashes to a single dash. -/
def collapseDashes : List Char → List Char
  | [] => []
  | [c] => [c]
  | a :: b :: rest =>
    if a = '-' && b = '-' then collapseDashes (b :: rest)
    else a :: collapseDashes (b :: rest)

/-- Removes one leading dash (the anchored edge-dash regex removes at most
one dash at each end, which after collapsing is all of them). -/
def dropLeadDash : List Char → List Char
  | '-' :: rest => rest
  | l => l

/-- Removes one trailing dash. -/
def dropTrailDash (l : List Char) : List Char := (dropLeadDash l.reverse).reverse

/-- JS or of two optional values: the first when truthy, else the second. -/
def jsOrVal (a b : Option JVal) : Option JVal :=
  match a with
  | some v => if jvTruthy v then some v else b
  | none => b

/-- `normalizeFormSlug` of src/lib/utils.ts: falsy input yields the fixed
placeholder slug, else lowercase, non-slug characters dashed, dash runs
collapsed, edge dashes stripped. -/
def normalizeFormSlug (raw : Option JVal) : String :=
  match raw with
  | none => "unknown-form"
  | some v =>
    if jvTruthy v then
      String.mk (dropTrailDash (dropLeadDash (collapseDashes ((jsToString v).data.map slugMap))))
    else "unknown-form"

/-! ## Field extraction (`src/lib/utils.ts` extractPatientFields) -/

/-- The structured record extractPatientFields returns. -/
structure Patient where
  patientName : Option String
  patientDob : Option String
  patientPhone : Option String
  patientSecondaryPhone : Option String
  patientAddress : Option String
  physicianName : Option String
  clinicAddress : Option String
  scheduleDate : Option String
  scheduleTime : Option String
  dateOfOrder : Option String
  testNames : List String
  category : Option String

/-- The inner `find` helper: first candidate key whose value is a string
with nonempty trim; returns the trimmed value. -/
def findField (fd : List (String × JVal)) : List String → Option String
  | [] => none
  | k :: rest =>
    match jlookup fd k with
    | some (.str s) => if jsTrim s == "" then findField fd rest else some (jsTrim s)
    | _ => findField fd rest

/-- The JS truthiness chain over lookups (the `testsRaw` expression). -/
def firstTruthy (fd : List (String × JVal)) : List String → Option JVal
  | [] => none
  | k :: rest =>
    match jlookup fd k with
    | some v => if jvTruthy v then some v else firstTruthy fd rest
    | none => firstTruthy fd rest

/-- Test-name list extraction: comma-separated string (trimmed, empties
dropped), array of values coerced to strings (empties dropped), else
the empty list. -/
def extractTestNames (fd : List (String × JVal)) : List String :=
  match firstTruthy fd ["mf-tests-selection", "tests", "selected_tests", "mf-tests", "test_names"] with
  | some (.str s) => ((splitCh ',' s).map jsTrim).filter (fun t => t ≠ "")
  | some (.arr l) => (jsToStringList l).filter (fun t => t ≠ "")
  | _ => []

/-- `extractPatientFields` with the candidate-key lists of the source. -/
def extractPatientFields (fd : List (String × JVal)) : Patient :=
  { patientName := findField fd
      ["mf-patient-name", "patient_name", "patient-name", "full_name", "name", "mf-name"]
    patientDob := findField fd
      ["mf-patient-dob", "patient_dob", "patient-dob", "date_of_birth", "dob", "mf-dob",
       "patient_date_of_birth"]
    patientPhone := findField fd
      ["mf-patient-phone", "patient_phone", "patient-phone", "contact_number", "phone",
       "mf-phone", "patient_contact_number"]
    patientSecondaryPhone := findField fd
      ["secondary_phone", "secondary-phone", "alt_phone", "patient_secondary_phone",
       "mf-secondary-phone"]
    patientAddress := findField fd
      ["patient_address", "patient-address", "address", "mf-address", "full_address"]
    physicianName := findField fd
      ["mf-physician-name", "physician_name", "physician-name", "doctor_name", "doctor",
       "mf-doctor-name"]
    clinicAddress := findField fd
      ["mf-clinic-address", "clinic_address", "clinic-address", "clinic", "mf-clinic"]
    scheduleDate := findField fd
      ["mf-select-date", "schedule_date", "schedule-date", "appointment_date",
       "mf-schedule-date", "date"]
    scheduleTime := findField fd
      ["mf-available-slots", "schedule_time", "schedule-time", "appointment_time",
       "mf-schedule-time", "time", "time_slot"]
    dateOfOrder := findField fd
      ["mf-date-of-order", "date_of_order", "date-of-order", "order_date"]
    testNames := extractTestNames fd
    category := findField fd ["mf-test-category-name", "category", "test_category"] }

/-! ## Zod payload validation (`webhookPayloadSchema.safeParse`) -/

/-- The parse result: the six declared top-level fields plus the
passthrough extras. -/
structure ParsedData where
  entries : Option (List (String × JVal))
  form_id : Option JVal
  form_name : Option String
  entry_id : Option JVal
  file_uploads : Option JVal
  webhook_secret : Option String
  extra : List (String × JVal)

/-- The six keys destructured away before the extras are spread. -/
def knownTopKeys : List String :=
  ["entries", "form_id", "form_name", "entry_id", "file_uploads", "webhook_secret"]

/-- An optional string-or-number union field: absent is fine, a present
value must be a string or a number. -/
def parseStrNum : Option JVal → Option (Option JVal)
  | none => some none
  | some (.str s) => some (some (.str s))
  | some (.num n) => some (some (.num n))
  | some _ => none

/-- An optional string field. -/
def parseStr : Option JVal → Option (Option String)
  | none => some none
  | some (.str s) => some (some s)
  | some _ => none

/-- The optional `entries` record field: a present value must be an
object. -/
def parseEntries : Option JVal → Option (Option (List (String × JVal)))
  | none => some none
  | some (.obj l) => some (some l)
  | some _ => none

/-- `webhookPayloadSchema.safeParse`: the payload must be an object; the
six declared fields are checked by type, everything else passes through. -/
def safeParse : JVal → Option ParsedData
  | .obj kvs =>
    match parseEntries (jlookup kvs "entries"), parseStrNum (jlookup kvs "form_id"),
        parseStr (jlookup kvs "form_name"), parseStrNum (jlookup kvs "entry_id"),
        parseStr (jlookup kvs "webhook_secret") with
    | some e, some fid, some fname, some eid, some wsec =>
      some { entries := e, form_id := fid, form_name := fname, entry_id := eid,
             file_uploads := jlookup kvs "file_uploads",
             webhook_secret := wsec,
             extra := kvs.filter (fun p => !(knownTopKeys.contains p.1)) }
    | _, _, _, _, _ => none
  | _ => none

/-! ## Order number generator (`src/lib/utils.ts` generateOrderNumber)

The two nondeterministic inputs are made explicit: the current UTC
calendar date (year, month, day — `toISOString` renders the UTC date) and
the base-36 fractional expansion of the `Math.random()` result, as the
digit list that `Number.prototype.toString(36)` prints after the leading
zero-dot (the empty list models a value whose base-36 rendering has no
fractional digits, such as 0). -/

/-- One base-36 digit as `Number.prototype.toString(36)` prints it
(lowercase). -/
def base36Digit (n : Nat) : Char :=
  if n < 10 then Char.ofNat (48 + n) else Char.ofNat (87 + n)

/-- `x.toString(36)` for `x` in the unit interval with the given
fractional digits (shortest form: no digits renders as a bare zero). -/
def randomToString36 (fracDigits : List Nat) : String :=
  if fracDigits.isEmpty then "0"
  else "0." ++ String.mk (fracDigits.map base36Digit)

/-- `s.substring(a, b)` (clamped to the string length). -/
def jsSubstring (s : String) (a b : Nat) : String :=
  String.mk ((s.data.drop a).take (b - a))

/-- Four fixed decimal digits (the padded year of `toISOString`). -/
def pad4 (n : Nat) : String :=
  String.mk [Nat.digitChar (n / 1000 % 10), Nat.digitChar (n / 100 % 10),
             Nat.digitChar (n / 10 % 10), Nat.digitChar (n % 10)]

/-- The first ten characters of `toISOString()`: the UTC date as
year-month-day with dashes. -/
def isoDatePart (y m d : Nat) : String := pad4 y ++ "-" ++ pad2c m ++ "-" ++ pad2c d

/-- `generateOrderNumber`: the ISO UTC date with dashes removed, and the
third through seventh characters of the stringified random number,
upper-cased. -/
def generateOrderNumber (y m d : Nat) (randFrac : List Nat) : String :=
  let dateStr := String.mk ((isoDatePart y m d).data.filter (fun c => c ≠ '-'))
  let random := String.mk ((jsSubstring (randomToString36 randFrac) 2 7).data.map asciiUpper)
  "ORD-" ++ dateStr ++ "-" ++ random

/-! ## Database state

Lists of rows model the tables touched by the webhook route; serial ids
are modelled by explicit next-id counters. -/

/-- A row of `orders` (the columns the webhook route writes; timestamp
columns are not modelled). -/
structure OrderRow where
  id : Nat
  wpEntryId : String
  orderNumber : String
  patientName : String
  patientDob : Option String
  patientPhone : Option String
  patientSecondaryPhone : Option String
  patientAddress : Option String
  physicianName : Option String
  clinicAddress : Option String
  scheduleDate : Option String
  scheduleTime : Option String
  dateOfOrder : String
  formSlug : String
  formName : Option String
  totalAmount : String
  status : String
  rawFormData : JVal

/-- A row of `order_items`. -/
structure ItemRow where
  orderId : Nat
  testId : Nat
  testName : String
  category : String
  priceAtOrder : String
  deriving DecidableEq

/-- A row of `webhook_logs` (timestamps not modelled). -/
structure LogRow where
  id : Nat
  payload : JVal
  status : String
  errorMessage : Option String

/-- The database state seen by the webhook route. -/
structure DB where
  catalog : List CatalogEntry
  orders : List OrderRow
  orderItems : List ItemRow
  logs : List LogRow
  nextOrderId : Nat
  nextLogId : Nat

/-- Request-independent inputs of one handler run: the configured secret,
the clock (`Date.now()` in milliseconds and the ISO date of today), the
pre-generated order number, and an injected storage fault that makes the
line-item insert inside the transaction throw. -/
structure Env where
  expectedSecret : String
  now : Nat
  todayStr : String
  orderNumber : String
  itemInsertFails : Bool

/-- One inbound request: `none` as body models an undecodable body (the
parse step throws), and the two out-of-band secret channels. -/
structure Request where
  body : Option JVal
  headerSecret : Option String
  querySecret : Option String

/-- The data object of the 201 success response. -/
structure RespData where
  id : Nat
  orderNumber : String
  testsMatched : Nat
  testsSubmitted : Nat
  totalAmount : String
  deriving DecidableEq

/-- An HTTP response of the route: status code plus the JSON envelope. -/
structure HResponse where
  status : Nat
  success : Bool
  data : Option RespData
  errorMsg : Option String
  deriving DecidableEq

/-! ## The webhook handler (webhook.ts lines 21-239) -/

/-- The null-prototype normalisation of line 37: a falsy decoded body
becomes the empty object, otherwise the JSON round-trip is the identity. -/
def rawPayloadOf (body0 : JVal) : JVal :=
  if jvTruthy body0 then body0 else .obj []

/-- Lines 45-48: unconditional audit-log insert with status received,
returning the fresh row id. -/
def insertLog (p : JVal) (db : DB) : Nat × DB :=
  (db.nextLogId,
   { db with
       logs := db.logs ++ [{ id := db.nextLogId, payload := p, status := "received",
                             errorMessage := none }],
       nextLogId := db.nextLogId + 1 })

/-- The failure update of the audit-log row (status failed plus an error
message). -/
def markLogFailed (logId : Nat) (msg : String) (db : DB) : DB :=
  { db with
      logs := db.logs.map (fun l =>
        if l.id == logId then { l with status := "failed", errorMessage := some msg } else l) }

/-- Lines 208-211: the success update of the audit-log row. -/
def markLogProcessed (logId : Nat) (db : DB) : DB :=
  { db with
      logs := db.logs.map (fun l =>
        if l.id == logId then { l with status := "processed" } else l) }

/-- Lines 52-56: the secret is the first truthy value among the header,
the query parameter and the `webhook_secret` payload field, else the empty
string. -/
def secretOf (req : Request) (rawPayload : JVal) : JVal :=
  let cands : List JVal :=
    [ match req.headerSecret with | some h => .str h | none => .null,
      match req.querySecret with | some q => .str q | none => .null,
      (jlookup (objFields rawPayload) "webhook_secret").getD .null ]
  (cands.find? jvTruthy).getD (.str "")

/-- Line 60: the request passes when no secret is configured or the
presented value strictly equals the configured string. -/
def secretAccepted (env : Env) (req : Request) (rawPayload : JVal) : Bool :=
  env.expectedSecret == "" ||
    (match secretOf req rawPayload with
     | .str s => s == env.expectedSecret
     | _ => false)

/-- Lines 84-87: the form fields are the spread of `entries` (when
present) followed by the top-level extras — under last-wins lookup the
append is exactly the object spread. -/
def formFieldsOf (d : ParsedData) : List (String × JVal) :=
  match d.entries with
  | some e => e ++ d.extra
  | none => d.extra

/-- Line 92: a truthy `entry_id` is stringified, otherwise a fresh
identifier is synthesized from the millisecond clock. -/
def entryIdOf (env : Env) (d : ParsedData) : String :=
  match d.entry_id with
  | some v => if jvTruthy v then jsToString v else "wp-" ++ toString env.now
  | none => "wp-" ++ toString env.now

/-- Lines 105-148: the resolution loop over the extracted test names;
unmatched names are dropped (only warned about). -/
def resolvedOf (catalog : List CatalogEntry) (d : ParsedData) : List CatalogEntry :=
  let patient := extractPatientFields (formFieldsOf d)
  patient.testNames.filterMap (resolveTest catalog patient.category)

/-- Lines 150-153: the total in cents (the reduce over `parseFloat` of
the snapshot prices; exact-cents arithmetic models the float sum, whose
rounding to two decimals agrees with the exact sum for scale-2 decimal
inputs at any realistic magnitude). -/
def totalCentsOf (catalog : List CatalogEntry) (d : ParsedData) : Nat :=
  ((resolvedOf catalog d).map (fun t => centsOf t.price)).sum

/-- `totalAmount` (`toFixed(2)` of the sum). -/
def totalAmountOf (catalog : List CatalogEntry) (d : ParsedData) : String :=
  formatCents (totalCentsOf catalog d)

/-- The column values of the order insert (lines 158-178). -/
structure OrderValues where
  wpEntryId : String
  orderNumber : String
  patientName : String
  patientDob : Option String
  patientPhone : Option String
  patientSecondaryPhone : Option String
  patientAddress : Option String
  physicianName : Option String
  clinicAddress : Option String
  scheduleDate : Option String
  scheduleTime : Option String
  dateOfOrder : String
  formSlug : String
  formName : Option String
  totalAmount : String
  rawFormData : JVal

/-- Assembles the insert values from the parsed payload. -/
def orderValuesOf (env : Env) (rawPayload : JVal) (catalog : List CatalogEntry)
    (d : ParsedData) : OrderValues :=
  let patient := extractPatientFields (formFieldsOf d)
  { wpEntryId := entryIdOf env d
    orderNumber := env.orderNumber
    patientName := patient.patientName.getD "Unknown Patient"
    patientDob := patient.patientDob
    patientPhone := patient.patientPhone
    patientSecondaryPhone := patient.patientSecondaryPhone
    patientAddress := patient.patientAddress
    physicianName := patient.physicianName
    clinicAddress := patient.clinicAddress
    scheduleDate := patient.scheduleDate
    scheduleTime := patient.scheduleTime
    dateOfOrder := patient.dateOfOrder.getD env.todayStr
    formSlug := normalizeFormSlug (jsOrVal d.form_id (d.form_name.map JVal.str))
    formName := match d.form_name with
      | some s => if s ≠ "" then some s else none
      | none => none
    totalAmount := totalAmountOf catalog d
    rawFormData := rawPayload }

/-- The conflict-update set of lines 179-189: only the contact/patient
metadata fields and the raw payload are overwritten. -/
def applyConflictUpdate (v : OrderValues) (o : OrderRow) : OrderRow :=
  { o with
      patientName := v.patientName
      patientPhone := v.patientPhone
      physicianName := v.physicianName
      clinicAddress := v.clinicAddress
      rawFormData := v.rawFormData }

/-- A freshly inserted order row. -/
def newOrderRow (id : Nat) (v : OrderValues) : OrderRow :=
  { id := id, wpEntryId := v.wpEntryId, orderNumber := v.orderNumber
    patientName := v.patientName, patientDob := v.patientDob
    patientPhone := v.patientPhone, patientSecondaryPhone := v.patientSecondaryPhone
    patientAddress := v.patientAddress, physicianName := v.physicianName
    clinicAddress := v.clinicAddress, scheduleDate := v.scheduleDate
    scheduleTime := v.scheduleTime, dateOfOrder := v.dateOfOrder
    formSlug := v.formSlug, formName := v.formName, totalAmount := v.totalAmount
    status := "pending", rawFormData := v.rawFormData }

/-- The `onConflictDoUpdate` insert keyed on the unique `wp_entry_id`
column: an existing row with the same key is updated in place (conflict
set only), otherwise a new row is inserted; the affected row is
returned. -/
def upsertOrder (v : OrderValues) (db : DB) : OrderRow × DB :=
  match db.orders.find? (fun o => o.wpEntryId == v.wpEntryId) with
  | some o0 =>
    (applyConflictUpdate v o0,
     { db with
         orders := db.orders.map (fun o =>
           if o.wpEntryId == v.wpEntryId then applyConflictUpdate v o else o) })
  | none =>
    (newOrderRow db.nextOrderId v,
     { db with
         orders := db.orders ++ [newOrderRow db.nextOrderId v],
         nextOrderId := db.nextOrderId + 1 })

/-- The line-item rows built from the resolved tests (lines 193-201). -/
def mkItemRows (orderId : Nat) (resolved : List CatalogEntry) : List ItemRow :=
  resolved.map (fun t =>
    { orderId := orderId, testId := t.id, testName := t.testName,
      category := t.category, priceAtOrder := t.price })

/-- The `db.transaction` block of lines 157-205: the upsert followed by
the guarded line-item insert.  A throw anywhere in the body (modelled by
the injected item-insert fault) yields `none` and the caller keeps the
pre-transaction state: every write inside the block is rolled back. -/
def runIngestionTxn (env : Env) (v : OrderValues) (resolved : List CatalogEntry)
    (db : DB) : Option (OrderRow × DB) :=
  let newOrder := (upsertOrder v db).1
  let db1 := (upsertOrder v db).2
  if resolved.length > 0 then
    if env.itemInsertFails then none
    else some (newOrder, { db1 with orderItems := db1.orderItems ++ mkItemRows newOrder.id resolved })
  else some (newOrder, db1)

/-- The tail of the handler once the payload has been validated: run the
transaction, then write the terminal audit-log status and respond. -/
def handleParsed (env : Env) (rawPayload : JVal) (logId : Nat) (d : ParsedData)
    (db1 : DB) : HResponse × DB :=
  let patient := extractPatientFields (formFieldsOf d)
  let resolved := resolvedOf db1.catalog d
  let v := orderValuesOf env rawPayload db1.catalog d
  match runIngestionTxn env v resolved db1 with
  | none =>
    ({ status := 500, success := false, data := none, errorMsg := some "Internal server error" },
     markLogFailed logId "order transaction failed" db1)
  | some (order, db2) =>
    ({ status := 201, success := true,
       data := some { id := order.id, orderNumber := order.orderNumber,
                      testsMatched := resolved.length,
                      testsSubmitted := patient.testNames.length,
                      totalAmount := v.totalAmount },
       errorMsg := none },
     markLogProcessed logId db2)

/-- The POST handler.  An undecodable body returns 400 before anything is
written (lines 39-42 precede the audit-log insert of line 45); afterwards
the received log row is written unconditionally, then the secret check,
the schema validation and the ingestion transaction each update the row to
a terminal status on their respective exits. -/
def processWebhook (env : Env) (req : Request) (db : DB) : HResponse × DB :=
  match req.body with
  | none =>
    ({ status := 400, success := false, data := none, errorMsg := some "Invalid payload" }, db)
  | some body0 =>
    let rawPayload := rawPayloadOf body0
    let logId := (insertLog rawPayload db).1
    let db1 := (insertLog rawPayload db).2
    if secretAccepted env req rawPayload then
      match safeParse rawPayload with
      | none =>
        ({ status := 400, success := false, data := none, errorMsg := some "Invalid form data" },
         markLogFailed logId "schema validation failed" db1)
      | some d => handleParsed env rawPayload logId d db1
    else
      ({ status := 401, success := false, data := none, errorMsg := some "Unauthorized" },
       markLogFailed logId "Invalid webhook secret" db1)

/-! ## Claims -/

/-! ## Concrete demonstration data -/

/-- A catalog row as the seed script creates it (search key precomputed by
the normalizer from the display name). -/
def hba1cEntry : CatalogEntry :=
  { id := 1, testName := "Hemoglobin A1c", searchName := "hemoglobin a1c",
    category := "medical_testing_and_panels", price := "90.00", isActive := true }

def demoCatalog : List CatalogEntry := [hba1cEntry]

/-- A freshly migrated database containing only the catalog. -/
def demoDB : DB :=
  { catalog := demoCatalog, orders := [], orderItems := [], logs := [],
    nextOrderId := 1, nextLogId := 1 }

/-- A Metform submission with external id e1 and one resolvable test; the
phone number parameter lets redeliveries vary the contact data. -/
def demoPayload (phone : String) : JVal :=
  .obj [("entry_id", .str "e1"), ("patient_name", .str "John Doe"),
        ("patient_phone", .str phone), ("mf-tests-selection", .str "Hemoglobin A1c")]

def demoEnv : Env :=
  { expectedSecret := "", now := 1000, todayStr := "2025-02-08",
    orderNumber := "ORD-20250208-AAAAA", itemInsertFails := false }

def demoEnv2 : Env :=
  { expectedSecret := "", now := 2000, todayStr := "2025-02-08",
    orderNumber := "ORD-20250208-BBBBB", itemInsertFails := false }

def demoReq (phone : String) : Request :=
  { body := some (demoPayload phone), headerSecret := none, querySecret := none }

/-- State after the first delivery of submission e1. -/
def afterFirst : DB := (processWebhook demoEnv (demoReq "111") demoDB).2

/-- State after the second delivery of submission e1 (identical test
selections, changed phone). -/
def afterSecond : DB := (processWebhook demoEnv2 (demoReq "222") afterFirst).2

/-- A second catalog entry whose search key strictly contains the first
entry's search key, so that a fuzzy lookup for hemoglobin a1c would hit it
if the exact stage did not win. -/
def fuzzyHba1cEntry : CatalogEntry :=
  { id := 3, testName := "Advanced Hemoglobin A1c Panel",
    searchName := "advanced hemoglobin a1c panel",
    category := "medical_testing_and_panels", price := "150.00", isActive := true }

/-- The catalog entry of the spec's Scenario A, but deactivated: the
category+price stage of the code places no condition on `isActive`
(webhook.ts lines 123-128 filter by category and numeric price only). -/
def inactiveDrugEntry : CatalogEntry :=
  { id := 2, testName := "Comprehensive Drug Screen",
    searchName := "comprehensive drug screen",
    category := "drug_testing", price := "140.00", isActive := false }

/-- The wrapped field and its colliding sibling. -/
def entriesDemo : List (String × JVal) := [("patient_name", JVal.str "Alice")]

/-- The parse of a payload whose `entries` wrapper and top level both
carry a patient_name. -/
def demoParsedDup : ParsedData :=
  { entries := some entriesDemo, form_id := none, form_name := none,
    entry_id := some (JVal.str "e2"), file_uploads := none, webhook_secret := none,
    extra := [("patient_name", JVal.str "Bob")] }

/-- Base-36 uppercase alphabet membership (digits and capital letters). -/
def isB36Upper (c : Char) : Bool := isDigitCh c || (65 ≤ c.toNat && c.toNat ≤ 90)

/-! ## Plumbing lemmas about the handler state machine -/

/-- The received-row inserted for a decoded body. -/
def receivedRow (b : JVal) (db : DB) : LogRow :=
  { id := db.nextLogId, payload := rawPayloadOf b, status := "received", errorMessage := none }

/-- A submission whose single test name matches nothing in the catalog. -/
def zeroPayload : JVal :=
  JVal.obj [("entry_id", JVal.str "z1"), ("patient_name", JVal.str "Zoe"),
            ("mf-tests-selection", JVal.str "Nonexistent Test")]

def zeroReq : Request := { body := some zeroPayload, headerSecret := none, querySecret := none }

/-- The zod parse of the zero-match payload. -/
def zeroParsed : ParsedData :=
  { entries := none, form_id := none, form_name := none, entry_id := some (JVal.str "z1"),
    file_uploads := none, webhook_secret := none,
    extra := [("patient_name", JVal.str "Zoe"),
              ("mf-tests-selection", JVal.str "Nonexistent Test")] }

/-- The demo environment with the line-item insert fault injected. -/
def faultEnv : Env := { demoEnv with itemInsertFails := true }

/-- The zod parse of the demo payload with phone 111. -/
def demoParsed : ParsedData :=
  { entries := none, form_id := none, form_name := none, entry_id := some (JVal.str "e1"),
    file_uploads := none, webhook_secret := none,
    extra := [("patient_name", JVal.str "John Doe"), ("patient_phone", JVal.str "111"),
              ("mf-tests-selection", JVal.str "Hemoglobin A1c")] }

/-- An inbound request whose body cannot be decoded (neither JSON nor form
encoding parse). -/
def malformedReq : Request := { body := none, headerSecret := none, querySecret := none }

/-- The appended received row with its terminal failure update applied. -/
def failedRow (b : JVal) (db : DB) (msg : String) : LogRow :=
  { id := db.nextLogId, payload := rawPayloadOf b, status := "failed", errorMessage := some msg }

/-- The appended received row with its terminal success update applied. -/
def processedRow (b : JVal) (db : DB) : LogRow :=
  { id := db.nextLogId, payload := rawPayloadOf b, status := "processed", errorMessage := none }

/-- The database state right after the received-row insert. -/
def dbAfterLog (b : JVal) (db : DB) : DB :=
  { db with logs := db.logs ++ [receivedRow b db], nextLogId := db.nextLogId + 1 }

/-- A submission without any entry_id field. -/
def noIdPayload : JVal :=
  JVal.obj [("patient_name", JVal.str "Nia"), ("mf-tests-selection", JVal.str "Hemoglobin A1c")]

def noIdReq : Request := { body := some noIdPayload, headerSecret := none, querySecret := none }

/-- The zod parse of the entry-id-less payload. -/
def noIdParsed : ParsedData :=
  { entries := none, form_id := none, form_name := none, entry_id := none,
    file_uploads := none, webhook_secret := none,
    extra := [("patient_name", JVal.str "Nia"),
              ("mf-tests-selection", JVal.str "Hemoglobin A1c")] }

/-! ## Lemmas and claim theorems -/

theorem asciiLower_keep (c : Char) (h : isKeepCh c = true) : asciiLower c = c := by
  have hc : ¬ ((65 ≤ c.toNat && c.toNat ≤ 90) = true) := by
    simp only [isKeepCh, isDigitCh, isWs, Bool.or_eq_true, Bool.and_eq_true,
      decide_eq_true_eq] at h
    simp only [Bool.and_eq_true, decide_eq_true_eq]
    omega
  simp [asciiLower, hc]

theorem splitWordsAux_good (l : List Char) :
    ∀ acc : List Char, (∀ c ∈ l, isKeepCh c = true) →
    (∀ c ∈ acc, isKeepCh c = true ∧ isWs c = false) →
    ∀ w ∈ splitWordsAux l acc, w ≠ [] ∧ ∀ c ∈ w, isKeepCh c = true ∧ isWs c = false := by
  induction l with
  | nil =>
    intro acc _ hacc w hw
    by_cases hE : acc.isEmpty
    · simp [splitWordsAux, hE] at hw
    · have hEf : acc.isEmpty = false := by
        cases h2 : acc.isEmpty
        · rfl
        · exact absurd h2 hE
      simp [splitWordsAux, hEf] at hw
      subst hw
      refine ⟨?_, ?_⟩
      · simp only [ne_eq, List.reverse_eq_nil_iff]
        intro hnil
        rw [hnil] at hEf
        simp at hEf
      · intro c hc
        exact hacc c (List.mem_reverse.mp hc)
  | cons c rest ih =>
    intro acc hl hacc w hw
    have hcl : isKeepCh c = true := hl c (by simp)
    have hrest : ∀ x ∈ rest, isKeepCh x = true := fun x hx => hl x (by simp [hx])
    by_cases hws : isWs c = true
    · by_cases hE : acc.isEmpty
      · simp [splitWordsAux, hws, hE] at hw
        exact ih [] hrest (by simp) w hw
      · have hEf : acc.isEmpty = false := by
          cases h2 : acc.isEmpty
          · rfl
          · exact absurd h2 hE
        simp [splitWordsAux, hws, hEf] at hw
        rcases hw with hw | hw
        · subst hw
          refine ⟨?_, fun x hx => hacc x (List.mem_reverse.mp hx)⟩
          simp only [ne_eq, List.reverse_eq_nil_iff]
          intro hnil
          rw [hnil] at hEf
          simp at hEf
        · exact ih [] hrest (by simp) w hw
    · have hwsf : isWs c = false := by
        cases hws2 : isWs c
        · rfl
        · exact absurd hws2 hws
      simp only [splitWordsAux, hwsf, Bool.false_eq_true, if_false] at hw
      refine ih (c :: acc) hrest ?_ w hw
      intro x hx
      rcases List.mem_cons.mp hx with hx | hx
      · subst hx
        exact ⟨hcl, hwsf⟩
      · exact hacc x hx

theorem splitWordsAux_noWs (w : List Char) :
    ∀ acc : List Char, (∀ c ∈ w, isWs c = false) →
    splitWordsAux w acc =
      if (acc.reverse ++ w).isEmpty then [] else [acc.reverse ++ w] := by
  induction w with
  | nil =>
    intro acc _
    by_cases hE : acc = []
    · subst hE
      simp [splitWordsAux]
    · have h1 : acc.isEmpty = false := by simp [List.isEmpty_iff, hE]
      have h2 : (acc.reverse ++ ([] : List Char)).isEmpty = false := by
        simp [List.isEmpty_iff, hE]
      simp [splitWordsAux, h1, h2, hE]
  | cons c w ih =>
    intro acc hw
    have hc : isWs c = false := hw c (by simp)
    have hrest : ∀ x ∈ w, isWs x = false := fun x hx => hw x (by simp [hx])
    have step : splitWordsAux (c :: w) acc = splitWordsAux w (c :: acc) := by
      simp [splitWordsAux, hc]
    rw [step, ih (c :: acc) hrest]
    have h1 : (c :: acc).reverse ++ w = acc.reverse ++ c :: w := by
      simp
    rw [h1]

theorem splitWordsAux_word_sep (w : List Char) :
    ∀ acc r : List Char, (∀ c ∈ w, isWs c = false) → acc.reverse ++ w ≠ [] →
    splitWordsAux (w ++ ' ' :: r) acc =
      (acc.reverse ++ w) :: splitWordsAux r [] := by
  induction w with
  | nil =>
    intro acc r _ hne
    have hacc : acc.isEmpty = false := by
      cases acc
      · simp at hne
      · rfl
    show splitWordsAux (' ' :: r) acc = (acc.reverse ++ []) :: splitWordsAux r []
    have hsp : isWs ' ' = true := by decide
    simp [splitWordsAux, hsp, hacc]
  | cons c w ih =>
    intro acc r hw _
    have hc : isWs c = false := hw c (by simp)
    have hrest : ∀ x ∈ w, isWs x = false := fun x hx => hw x (by simp [hx])
    have hne2 : (c :: acc).reverse ++ w ≠ [] := by
      simp
    have step : splitWordsAux ((c :: w) ++ ' ' :: r) acc
        = splitWordsAux (w ++ ' ' :: r) (c :: acc) := by
      rw [List.cons_append]
      simp [splitWordsAux, hc]
    rw [step, ih (c :: acc) r hrest hne2]
    simp

theorem splitWords_joinWords (W : List (List Char))
    (hW : ∀ w ∈ W, w ≠ [] ∧ ∀ c ∈ w, isWs c = false) :
    splitWords (joinWords W) = W := by
  induction W with
  | nil => rfl
  | cons w ws ih =>
    cases ws with
    | nil =>
      have hw := hW w (by simp)
      show splitWordsAux w [] = [w]
      rw [splitWordsAux_noWs w [] hw.2]
      have h1 : ([] : List Char).reverse ++ w = w := by simp
      rw [h1]
      have hne : w.isEmpty = false := by
        cases h2 : w.isEmpty
        · rfl
        · exact absurd (List.isEmpty_iff.mp h2) hw.1
      simp [hne]
    | cons w2 ws2 =>
      have hw := hW w (by simp)
      have hrest : ∀ x ∈ w2 :: ws2, x ≠ [] ∧ ∀ c ∈ x, isWs c = false :=
        fun x hx => hW x (by simp [hx])
      show splitWordsAux (w ++ ' ' :: joinWords (w2 :: ws2)) [] = w :: (w2 :: ws2)
      rw [splitWordsAux_word_sep w [] (joinWords (w2 :: ws2)) hw.2 (by simpa using hw.1)]
      have h1 : ([] : List Char).reverse ++ w = w := by simp
      rw [h1]
      exact congrArg (w :: ·) (ih hrest)

theorem joinWords_keep (W : List (List Char))
    (hW : ∀ w ∈ W, ∀ c ∈ w, isKeepCh c = true) :
    ∀ c ∈ joinWords W, isKeepCh c = true := by
  induction W with
  | nil => intro c hc; simp [joinWords] at hc
  | cons w ws ih =>
    cases ws with
    | nil =>
      intro c hc
      exact hW w (by simp) c hc
    | cons w2 ws2 =>
      intro c hc
      have hrest : ∀ x ∈ w2 :: ws2, ∀ c ∈ x, isKeepCh c = true :=
        fun x hx => hW x (by simp [hx])
      simp only [joinWords, List.mem_append, List.mem_cons] at hc
      rcases hc with hc | hc | hc
      · exact hW w (by simp) c hc
      · subst hc
        decide
      · exact ih hrest c (by exact hc)

theorem normalizeTestName_stable_chars (s : String) :
    ∀ c ∈ (normalizeTestName s).data, isKeepCh c = true := by
  intro c hc
  have hmem : c ∈ joinWords (splitWords ((s.data.map asciiLower).filter isKeepCh)) := hc
  have hgood := splitWordsAux_good ((s.data.map asciiLower).filter isKeepCh) []
    (fun x hx => (List.mem_filter.mp hx).2) (by simp)
  exact joinWords_keep _ (fun w hw x hx => ((hgood w hw).2 x hx).1) c hmem

/-- C8: the name-normalization function canonical_key (`normalizeTestName`,
modelled from the spec since its body is not among the sources) is
idempotent: for every input string, including the empty string, applying
it twice gives the same result as applying it once. -/
theorem C8_canonical_key_idempotent (s : String) :
    normalizeTestName (normalizeTestName s) = normalizeTestName s := by
  have hchars := normalizeTestName_stable_chars s
  have hmap : (normalizeTestName s).data.map asciiLower = (normalizeTestName s).data := by
    rw [List.map_congr_left (fun c hc => asciiLower_keep c (hchars c hc))]
    exact List.map_id _
  have hfil : (normalizeTestName s).data.filter isKeepCh = (normalizeTestName s).data :=
    List.filter_eq_self.mpr hchars
  have hW := splitWordsAux_good ((s.data.map asciiLower).filter isKeepCh) []
    (fun x hx => (List.mem_filter.mp hx).2) (by simp)
  have hsplit := splitWords_joinWords (splitWords ((s.data.map asciiLower).filter isKeepCh))
    (fun w hw => ⟨(hW w hw).1, fun c hc => ((hW w hw).2 c hc).2⟩)
  show String.mk (joinWords (splitWords (((normalizeTestName s).data.map asciiLower).filter isKeepCh)))
    = normalizeTestName s
  rw [hmap, hfil]
  show String.mk (joinWords (splitWords (joinWords (splitWords ((s.data.map asciiLower).filter isKeepCh)))))
    = normalizeTestName s
  rw [hsplit]
  rfl

/-- C1: evaluation of the code at the failing input.  Submission e1 with
one resolvable test is delivered twice with identical test selections
(only the phone changes).  Both deliveries succeed and exactly one order
row exists afterwards, with the contact metadata refreshed and the total
untouched — but the conflict path of the transaction (webhook.ts lines
192-201) re-inserts the resolved line items unconditionally, so the
line-item count doubles from 1 to 2 instead of staying unchanged as the
claim (and the data-model invariant tying the stored total to the sum of
the line items) requires. -/
theorem C1_redelivery_duplicates_line_items :
    (processWebhook demoEnv (demoReq "111") demoDB).1.status = 201 ∧
    afterFirst.orders.length = 1 ∧
    afterFirst.orderItems.length = 1 ∧
    (processWebhook demoEnv2 (demoReq "222") afterFirst).1.status = 201 ∧
    afterSecond.orders.length = 1 ∧
    afterSecond.orders.map (fun o => o.patientPhone) = [some "222"] ∧
    afterSecond.orders.map (fun o => o.totalAmount) = ["90.00"] ∧
    afterSecond.orderItems.length = 2 := by
  decide

/-- C5: the resolver is a strict priority chain — an exact
normalized-search-key hit is returned outright (in particular it beats any
fuzzy-substring hit elsewhere in the catalog); with no exact hit and both
hints present a category+price hit is returned; and only when both earlier
stages produce nothing is the fuzzy substring stage's result used. -/
theorem C5_stage_priority (catalog : List CatalogEntry) (categoryHint : Option String)
    (raw : String) :
    (∀ e, exactStage catalog (normKeyOf raw) = some e →
      resolveTest catalog categoryHint raw = some e) ∧
    (∀ e, exactStage catalog (normKeyOf raw) = none →
      catPriceAttempt catalog categoryHint raw = some e →
      resolveTest catalog categoryHint raw = some e) ∧
    (exactStage catalog (normKeyOf raw) = none →
      catPriceAttempt catalog categoryHint raw = none →
      resolveTest catalog categoryHint raw = fuzzyStage catalog (normKeyOf raw)) := by
  refine ⟨?_, ?_, ?_⟩
  · intro e he
    simp [resolveTest, he]
  · intro e h1 h2
    simp [resolveTest, h1, h2]
  · intro h1 h2
    simp [resolveTest, h1, h2]

/-- Witness for C5 at a concrete input: with a catalog whose first entry
matches hemoglobin a1c only fuzzily and whose second entry matches it
exactly, the resolver returns the exact-normalized match. -/
theorem C5_stage_priority_witness :
    resolveTest [fuzzyHba1cEntry, hba1cEntry] none "Hemoglobin A1c" = some hba1cEntry ∧
    fuzzyStage [fuzzyHba1cEntry, hba1cEntry] (normKeyOf "Hemoglobin A1c") = some fuzzyHba1cEntry ∧
    hba1cEntry ≠ fuzzyHba1cEntry :=
  ⟨(C5_stage_priority [fuzzyHba1cEntry, hba1cEntry] none "Hemoglobin A1c").1 hba1cEntry
      (by decide),
   by decide, by decide⟩

/-- C6 counterexample: with a catalog whose only entry is inactive, the
raw name of Scenario A and the category hint drug-testing, the exact and
fuzzy stages produce nothing, yet the category+price stage matches the
inactive entry and the resolver returns it — refuting the claim that the
stage matches only an active catalog entry. -/
theorem C6_counterexample :
    exactStage [inactiveDrugEntry] (normKeyOf "drug-screening-and-confirmation-$140") = none ∧
    fuzzyStage [inactiveDrugEntry] (normKeyOf "drug-screening-and-confirmation-$140") = none ∧
    resolveTest [inactiveDrugEntry] (some "drug-testing") "drug-screening-and-confirmation-$140"
      = some inactiveDrugEntry ∧
    inactiveDrugEntry.isActive = false := by
  decide

/-- C6 amended: when the normalized exact match fails and both hints are
available, the category+price stage matches any catalog entry — active or
inactive — whose category equals the dash-to-underscore normalized hint
and whose price equals the price hint under exact decimal (numeric)
equality, and the resolver returns that stage's hit. -/
theorem C6_cat_price_stage_amended (catalog : List CatalogEntry) (cat p raw : String)
    (e : CatalogEntry)
    (h1 : exactStage catalog (normKeyOf raw) = none)
    (h2 : priceHintOf raw = some p)
    (h3 : catPriceStage catalog cat p = some e) :
    resolveTest catalog (some cat) raw = some e ∧
    e.category = dashToUnderscore cat ∧
    centsEqB e.price p = true := by
  have hpred := List.find?_some h3
  simp only [Bool.and_eq_true, beq_iff_eq] at hpred
  refine ⟨?_, hpred.1, hpred.2⟩
  simp [resolveTest, catPriceAttempt, h1, h2, h3]

/-- Witness for C6 at a concrete input: the price hint is the digit string
140, the matched entry stores 140.00 — numerically equal, string-unequal —
the category hint arrives dashed, the stored category is underscored, and
the matched entry is inactive. -/
theorem C6_cat_price_stage_amended_witness :
    resolveTest [inactiveDrugEntry] (some "drug-testing") "drug-screening-and-confirmation-$140"
      = some inactiveDrugEntry ∧
    inactiveDrugEntry.category = dashToUnderscore "drug-testing" ∧
    centsEqB inactiveDrugEntry.price "140" = true ∧
    inactiveDrugEntry.price ≠ "140" ∧
    inactiveDrugEntry.isActive = false :=
  have h := C6_cat_price_stage_amended [inactiveDrugEntry] "drug-testing" "140"
    "drug-screening-and-confirmation-$140" inactiveDrugEntry (by decide) (by decide) (by decide)
  ⟨h.1, h.2.1, h.2.2, by decide, by decide⟩

/-- Lookup distributes over the append that models object spread: the
right (later-spread) operand wins on key collision. -/
theorem jlookup_append (a b : List (String × JVal)) (k : String) :
    jlookup (a ++ b) k = (jlookup b k).or (jlookup a k) := by
  unfold jlookup
  rw [List.filter_append, List.getLast?_append]
  cases (List.filter (fun p => p.1 == k) b).getLast? <;> simp [Option.or]

/-- C7 counterexample: with Alice inside `entries` and Bob as the sibling
top-level field, the form fields passed to extraction resolve patient_name
to Bob — the top-level extra field wins the collision, not the `entries`
value as the claim states (the spread of line 86 puts the extras last, and
a later spread overrides an earlier one). -/
theorem C7_counterexample :
    jlookup (formFieldsOf demoParsedDup) "patient_name" = some (JVal.str "Bob") ∧
    (extractPatientFields (formFieldsOf demoParsedDup)).patientName = some "Bob" ∧
    jlookup entriesDemo "patient_name" = some (JVal.str "Alice") ∧
    "Bob" ≠ "Alice" :=
  ⟨by rfl, by rfl, by rfl, by decide⟩

/-- C7 amended: when the payload contains an `entries` wrapper, the form
fields passed to field extraction are the merge of the `entries` contents
with the top-level extra fields, and on any key collision the value of the
top-level sibling field takes precedence over the one from `entries`. -/
theorem C7_merge_toplevel_precedence (d : ParsedData) (e : List (String × JVal))
    (h : d.entries = some e) (k : String) :
    jlookup (formFieldsOf d) k = (jlookup d.extra k).or (jlookup e k) := by
  unfold formFieldsOf
  rw [h]
  exact jlookup_append e d.extra k

/-- Witness for C7 at the concrete colliding payload: the merged lookup
follows the or-chain with the extras first, and concretely yields Bob. -/
theorem C7_merge_toplevel_precedence_witness :
    jlookup (formFieldsOf demoParsedDup) "patient_name"
      = (jlookup demoParsedDup.extra "patient_name").or (jlookup entriesDemo "patient_name") ∧
    jlookup (formFieldsOf demoParsedDup) "patient_name" = some (JVal.str "Bob") :=
  ⟨C7_merge_toplevel_precedence demoParsedDup entriesDemo rfl "patient_name", by rfl⟩

/-- Unpacking the string constructor. -/
theorem data_mk (l : List Char) : (String.mk l).data = l := rfl

/-- Repacking a string from its character list. -/
theorem mk_data (s : String) : String.mk s.data = s := rfl

theorem digitChar_spec : ∀ j < 10, (Nat.digitChar j ≠ '-') ∧ (Nat.digitChar j).isDigit = true := by
  decide

theorem base36_upper_spec : ∀ x < 36, isB36Upper (asciiUpper (base36Digit x)) = true := by
  decide

theorem isoDigits_spec (y m d : Nat) :
    ∀ c ∈ (pad4 y).data ++ ((pad2c m).data ++ (pad2c d).data), c ≠ '-' ∧ c.isDigit = true := by
  intro c hc
  simp only [pad4, pad2c, data_mk, List.mem_append, List.mem_cons, List.mem_singleton,
    List.not_mem_nil, or_false] at hc
  rcases hc with (h | h | h | h) | (h | h) | (h | h) <;>
    (subst h
     exact ⟨(digitChar_spec _ (Nat.mod_lt _ (by omega))).1,
            (digitChar_spec _ (Nat.mod_lt _ (by omega))).2⟩)

theorem isoDateStr_eq (y m d : Nat) :
    String.mk ((isoDatePart y m d).data.filter (fun c => c ≠ '-'))
      = pad4 y ++ pad2c m ++ pad2c d := by
  have hspec := isoDigits_spec y m d
  have hfil : ∀ l : List Char, (∀ c ∈ l, c ≠ '-') →
      l.filter (fun c => c ≠ '-') = l := by
    intro l hl
    refine List.filter_eq_self.mpr ?_
    intro a ha
    simpa using hl a ha
  have hdata : (isoDatePart y m d).data
      = (pad4 y).data ++ ('-' :: ((pad2c m).data ++ ('-' :: (pad2c d).data))) := by
    simp [isoDatePart, String.data_append]
  rw [hdata]
  rw [List.filter_append]
  have h4 : ((pad4 y).data.filter (fun c => c ≠ '-')) = (pad4 y).data :=
    hfil _ (fun c hc => (hspec c (by simp [hc])).1)
  have hdash : (('-' :: ((pad2c m).data ++ ('-' :: (pad2c d).data))).filter (fun c => c ≠ '-'))
      = ((pad2c m).data.filter (fun c => c ≠ '-')) ++ ((pad2c d).data.filter (fun c => c ≠ '-')) := by
    simp [List.filter_append]
  have hm : ((pad2c m).data.filter (fun c => c ≠ '-')) = (pad2c m).data :=
    hfil _ (fun c hc => (hspec c (by simp [hc])).1)
  have hd : ((pad2c d).data.filter (fun c => c ≠ '-')) = (pad2c d).data :=
    hfil _ (fun c hc => (hspec c (by simp [hc])).1)
  rw [h4, hdash, hm, hd]
  have hsplit : (pad4 y ++ pad2c m ++ pad2c d).data
      = (pad4 y).data ++ ((pad2c m).data ++ (pad2c d).data) := by
    simp [String.data_append]
  calc String.mk ((pad4 y).data ++ ((pad2c m).data ++ (pad2c d).data))
      = String.mk ((pad4 y ++ pad2c m ++ pad2c d).data) := by rw [hsplit]
    _ = pad4 y ++ pad2c m ++ pad2c d := mk_data _

/-- C9 counterexample: `Math.random()` may return exactly 0 (its
documented range is the half-open unit interval), whose base-36 rendering
is the bare digit 0 with no fractional digits at all; the substring from
index 2 is then empty, so the generated value for the UTC date 2025-02-08
has no random component — there is no 5-character suffix, refuting the
claim that every generated value ends in exactly 5 random base-36
characters. -/
theorem C9_counterexample :
    generateOrderNumber 2025 2 8 [] = "ORD-20250208-" ∧
    ¬ ∃ suf : String, suf.length = 5 ∧
        generateOrderNumber 2025 2 8 [] = "ORD-20250208-" ++ suf := by
  refine ⟨by decide, ?_⟩
  rintro ⟨suf, h5, heq⟩
  have h0 : generateOrderNumber 2025 2 8 [] = "ORD-20250208-" := by decide
  rw [h0] at heq
  have hlen : ("ORD-20250208-" : String).length = ("ORD-20250208-" ++ suf).length :=
    congrArg String.length heq
  rw [String.length_append] at hlen
  omega

/-- C9 amended: every generated value has the shape ORD, dash, the
current UTC calendar date as 8 decimal digits, dash, then the first up to
five base-36 fractional digits of the random number upper-cased: at most
5 characters, all base-36 uppercase, and exactly 5 precisely when the
random value's base-36 expansion has at least 5 fractional digits (the
generator inputs are the UTC date rendered by toISOString and the digit
list that toString(36) prints for the random number). -/
theorem C9_order_number_shape (y m d : Nat) (digits36 : List Nat)
    (hdig : ∀ x ∈ digits36, x < 36) :
    ∃ suf : String,
      generateOrderNumber y m d digits36
        = "ORD-" ++ (pad4 y ++ pad2c m ++ pad2c d) ++ "-" ++ suf ∧
      (pad4 y ++ pad2c m ++ pad2c d).length = 8 ∧
      (∀ c ∈ (pad4 y ++ pad2c m ++ pad2c d).data, c.isDigit = true) ∧
      suf.length = min 5 digits36.length ∧
      (∀ c ∈ suf.data, isB36Upper c = true) ∧
      (5 ≤ digits36.length → suf.length = 5) := by
  refine ⟨String.mk ((jsSubstring (randomToString36 digits36) 2 7).data.map asciiUpper),
    ?_, ?_, ?_, ?_, ?_, ?_⟩
  · show "ORD-" ++ String.mk ((isoDatePart y m d).data.filter (fun c => c ≠ '-')) ++ "-"
        ++ String.mk ((jsSubstring (randomToString36 digits36) 2 7).data.map asciiUpper)
      = _
    rw [isoDateStr_eq]
  · rfl
  · intro c hc
    have hc2 : c ∈ (pad4 y).data ++ ((pad2c m).data ++ (pad2c d).data) := by
      have : (pad4 y ++ pad2c m ++ pad2c d).data
          = (pad4 y).data ++ ((pad2c m).data ++ (pad2c d).data) := by
        simp [String.data_append]
      rw [this] at hc
      exact hc
    exact (isoDigits_spec y m d c hc2).2
  · cases digits36 with
    | nil => rfl
    | cons a as =>
      show ((((randomToString36 (a :: as)).data.drop 2).take 5).map asciiUpper).length
          = min 5 (a :: as).length
      have hdata : (randomToString36 (a :: as)).data
          = '0' :: '.' :: (a :: as).map base36Digit := rfl
      rw [hdata]
      simp [List.length_take]
      omega
  · intro c hc
    simp only [data_mk, List.mem_map] at hc
    obtain ⟨c0, hc0, hup⟩ := hc
    have hc1 : c0 ∈ (randomToString36 digits36).data.drop 2 := List.mem_of_mem_take hc0
    cases digits36 with
    | nil => simp [randomToString36] at hc1
    | cons a as =>
      have hdata : (randomToString36 (a :: as)).data
          = '0' :: '.' :: (a :: as).map base36Digit := rfl
      rw [hdata] at hc1
      simp only [List.drop_succ_cons, List.drop_zero, List.mem_map] at hc1
      obtain ⟨x, hx, hbx⟩ := hc1
      subst hup
      subst hbx
      exact base36_upper_spec x (hdig x hx)
  · intro h5
    cases digits36 with
    | nil => simp at h5
    | cons a as =>
      show ((((randomToString36 (a :: as)).data.drop 2).take 5).map asciiUpper).length = 5
      have hdata : (randomToString36 (a :: as)).data
          = '0' :: '.' :: (a :: as).map base36Digit := rfl
      rw [hdata]
      simp only [List.drop_succ_cons, List.drop_zero, List.length_map, List.length_take,
        List.length_cons]
      simp only [List.length_cons] at h5
      omega

theorem upsertOrder_logs (v : OrderValues) (db : DB) :
    ((upsertOrder v db).2).logs = db.logs := by
  unfold upsertOrder
  cases db.orders.find? (fun o => o.wpEntryId == v.wpEntryId) <;> rfl

theorem upsertOrder_fresh (v : OrderValues) (db : DB)
    (h : ∀ o ∈ db.orders, o.wpEntryId ≠ v.wpEntryId) :
    upsertOrder v db =
      (newOrderRow db.nextOrderId v,
       { db with orders := db.orders ++ [newOrderRow db.nextOrderId v],
                 nextOrderId := db.nextOrderId + 1 }) := by
  unfold upsertOrder
  have hf : db.orders.find? (fun o => o.wpEntryId == v.wpEntryId) = none := by
    rw [List.find?_eq_none]
    intro o ho
    simpa using h o ho
  rw [hf]

theorem runIngestionTxn_fails (env : Env) (v : OrderValues) (resolved : List CatalogEntry)
    (db : DB) (hr : resolved ≠ []) (hf : env.itemInsertFails = true) :
    runIngestionTxn env v resolved db = none := by
  unfold runIngestionTxn
  have hl : 0 < resolved.length := List.length_pos.mpr hr
  simp [hl, hf]

theorem runIngestionTxn_fresh (env : Env) (v : OrderValues) (resolved : List CatalogEntry)
    (db : DB)
    (hfresh : ∀ o ∈ db.orders, o.wpEntryId ≠ v.wpEntryId)
    (hok : env.itemInsertFails = false) :
    runIngestionTxn env v resolved db =
      some (newOrderRow db.nextOrderId v,
        { db with
            orders := db.orders ++ [newOrderRow db.nextOrderId v],
            nextOrderId := db.nextOrderId + 1,
            orderItems := db.orderItems ++ mkItemRows db.nextOrderId resolved }) := by
  unfold runIngestionTxn
  rw [upsertOrder_fresh v db hfresh]
  cases resolved with
  | nil => simp [mkItemRows]
  | cons t ts =>
    simp [hok]
    rfl

theorem runIngestionTxn_logs (env : Env) (v : OrderValues) (resolved : List CatalogEntry)
    (db : DB) (o : OrderRow) (db2 : DB)
    (h : runIngestionTxn env v resolved db = some (o, db2)) :
    db2.logs = db.logs := by
  unfold runIngestionTxn at h
  by_cases hr : 0 < resolved.length
  · rw [if_pos hr] at h
    by_cases hf : env.itemInsertFails = true
    · rw [if_pos hf] at h
      exact absurd h (by simp)
    · rw [if_neg hf] at h
      have h2 := Option.some.inj h
      have h3 : db2 = { (upsertOrder v db).2 with
          orderItems := ((upsertOrder v db).2).orderItems
            ++ mkItemRows ((upsertOrder v db).1).id resolved } :=
        (congrArg Prod.snd h2).symm
      rw [h3]
      exact upsertOrder_logs v db
  · rw [if_neg hr] at h
    have h2 := Option.some.inj h
    have h3 : db2 = (upsertOrder v db).2 := (congrArg Prod.snd h2).symm
    rw [h3]
    exact upsertOrder_logs v db

theorem handleParsed_fresh (env : Env) (rawPayload : JVal) (logId : Nat) (d : ParsedData)
    (db1 : DB)
    (hfresh : ∀ o ∈ db1.orders, o.wpEntryId ≠ entryIdOf env d)
    (hok : env.itemInsertFails = false) :
    handleParsed env rawPayload logId d db1 =
      ({ status := 201, success := true,
         data := some { id := db1.nextOrderId, orderNumber := env.orderNumber,
                        testsMatched := (resolvedOf db1.catalog d).length,
                        testsSubmitted := (extractPatientFields (formFieldsOf d)).testNames.length,
                        totalAmount := totalAmountOf db1.catalog d },
         errorMsg := none },
       markLogProcessed logId
         { db1 with
             orders := db1.orders ++
               [newOrderRow db1.nextOrderId (orderValuesOf env rawPayload db1.catalog d)],
             nextOrderId := db1.nextOrderId + 1,
             orderItems := db1.orderItems ++
               mkItemRows db1.nextOrderId (resolvedOf db1.catalog d) }) := by
  simp only [handleParsed]
  rw [runIngestionTxn_fresh env (orderValuesOf env rawPayload db1.catalog d)
    (resolvedOf db1.catalog d) db1 hfresh hok]
  rfl

theorem processWebhook_success (env : Env) (req : Request) (db : DB) (b : JVal) (d : ParsedData)
    (hbody : req.body = some b)
    (hsecret : secretAccepted env req (rawPayloadOf b) = true)
    (hparse : safeParse (rawPayloadOf b) = some d)
    (hok : env.itemInsertFails = false)
    (hfresh : ∀ o ∈ db.orders, o.wpEntryId ≠ entryIdOf env d) :
    processWebhook env req db =
      ({ status := 201, success := true,
         data := some { id := db.nextOrderId, orderNumber := env.orderNumber,
                        testsMatched := (resolvedOf db.catalog d).length,
                        testsSubmitted := (extractPatientFields (formFieldsOf d)).testNames.length,
                        totalAmount := totalAmountOf db.catalog d },
         errorMsg := none },
       markLogProcessed db.nextLogId
         { db with
             logs := db.logs ++ [receivedRow b db],
             nextLogId := db.nextLogId + 1,
             orders := db.orders ++
               [newOrderRow db.nextOrderId (orderValuesOf env (rawPayloadOf b) db.catalog d)],
             nextOrderId := db.nextOrderId + 1,
             orderItems := db.orderItems ++ mkItemRows db.nextOrderId (resolvedOf db.catalog d) }) := by
  simp only [processWebhook, hbody, insertLog, hsecret, hparse, if_true]
  rw [handleParsed_fresh env (rawPayloadOf b) db.nextLogId d
    { db with
        logs := db.logs ++ [{ id := db.nextLogId, payload := rawPayloadOf b,
                              status := "received", errorMessage := none }],
        nextLogId := db.nextLogId + 1 }
    hfresh hok]
  rfl

theorem processWebhook_txn_failure (env : Env) (req : Request) (db : DB) (b : JVal)
    (d : ParsedData)
    (hbody : req.body = some b)
    (hsecret : secretAccepted env req (rawPayloadOf b) = true)
    (hparse : safeParse (rawPayloadOf b) = some d)
    (hfail : env.itemInsertFails = true)
    (hres : resolvedOf db.catalog d ≠ []) :
    processWebhook env req db =
      ({ status := 500, success := false, data := none, errorMsg := some "Internal server error" },
       markLogFailed db.nextLogId "order transaction failed"
         { db with
             logs := db.logs ++ [receivedRow b db],
             nextLogId := db.nextLogId + 1 }) := by
  simp only [processWebhook, hbody, insertLog, hsecret, hparse, if_true]
  simp only [handleParsed]
  rw [runIngestionTxn_fails env _ _ _ hres hfail]
  rfl

/-- C2: for every webhook submission that reaches the transaction (body
decodes, secret accepted, schema valid, no storage fault, fresh external
id), the endpoint responds 201 with success true and creates exactly one
order whose totalAmount is the sum of the snapshot prices of the resolved
catalog entries in cents, formatted with exactly two decimal digits; when
zero tests resolve, the order is still created with totalAmount 0.00 and
no line items — a valid, non-error outcome. -/
theorem C2_total_amount_and_zero_match (env : Env) (req : Request) (db : DB) (b : JVal)
    (d : ParsedData)
    (hbody : req.body = some b)
    (hsecret : secretAccepted env req (rawPayloadOf b) = true)
    (hparse : safeParse (rawPayloadOf b) = some d)
    (hok : env.itemInsertFails = false)
    (hfresh : ∀ o ∈ db.orders, o.wpEntryId ≠ entryIdOf env d)
    (hprices : ∀ t ∈ resolvedOf db.catalog d, (dec2cents t.price).isSome = true) :
    (processWebhook env req db).1.status = 201 ∧
    (processWebhook env req db).1.success = true ∧
    (∀ t ∈ resolvedOf db.catalog d, dec2cents t.price = some (centsOf t.price)) ∧
    ∃ o : OrderRow,
      (processWebhook env req db).2.orders = db.orders ++ [o] ∧
      o.totalAmount
        = formatCents (((resolvedOf db.catalog d).map (fun t => centsOf t.price)).sum) ∧
      (∃ c1 c2 : Char, c1.isDigit = true ∧ c2.isDigit = true ∧
        o.totalAmount
          = toString ((((resolvedOf db.catalog d).map (fun t => centsOf t.price)).sum) / 100)
            ++ "." ++ String.mk [c1, c2]) ∧
      (processWebhook env req db).2.orderItems
        = db.orderItems ++ mkItemRows o.id (resolvedOf db.catalog d) ∧
      (resolvedOf db.catalog d = [] →
        o.totalAmount = "0.00" ∧ (processWebhook env req db).2.orderItems = db.orderItems) := by
  rw [processWebhook_success env req db b d hbody hsecret hparse hok hfresh]
  refine ⟨rfl, rfl, ?_, newOrderRow db.nextOrderId (orderValuesOf env (rawPayloadOf b) db.catalog d),
    rfl, rfl, ?_, rfl, ?_⟩
  · intro t ht
    have hsome := hprices t ht
    cases h2 : dec2cents t.price with
    | none => rw [h2] at hsome; simp at hsome
    | some c => simp [centsOf, h2]
  · refine ⟨Nat.digitChar ((((resolvedOf db.catalog d).map (fun t => centsOf t.price)).sum % 100) / 10 % 10),
      Nat.digitChar ((((resolvedOf db.catalog d).map (fun t => centsOf t.price)).sum % 100) % 10),
      (digitChar_spec _ (Nat.mod_lt _ (by omega))).2,
      (digitChar_spec _ (Nat.mod_lt _ (by omega))).2, ?_⟩
    rfl
  · intro h0
    constructor
    · show totalAmountOf db.catalog d = "0.00"
      simp only [totalAmountOf, totalCentsOf, h0]
      rfl
    · show db.orderItems ++ mkItemRows db.nextOrderId (resolvedOf db.catalog d) = db.orderItems
      simp [h0, mkItemRows]

/-- Witness for C2 at a concrete zero-match submission: every test name is
unmatched, yet the response is 201 success and an order with totalAmount
0.00 and no line items is created. -/
theorem C2_total_amount_and_zero_match_witness :
    (processWebhook demoEnv zeroReq demoDB).1.status = 201 ∧
    (processWebhook demoEnv zeroReq demoDB).1.success = true ∧
    resolvedOf demoDB.catalog zeroParsed = [] ∧
    ∃ o : OrderRow,
      (processWebhook demoEnv zeroReq demoDB).2.orders = demoDB.orders ++ [o] ∧
      o.totalAmount = "0.00" ∧
      (processWebhook demoEnv zeroReq demoDB).2.orderItems = demoDB.orderItems := by
  have h := C2_total_amount_and_zero_match demoEnv zeroReq demoDB zeroPayload zeroParsed
    rfl (by decide) (by rfl) rfl (by decide) (by decide)
  obtain ⟨h1, h2, _, o, ho, _, _, _, hzero⟩ := h
  have h0 : resolvedOf demoDB.catalog zeroParsed = [] := by decide
  exact ⟨h1, h2, h0, o, ho, (hzero h0).1, (hzero h0).2⟩

/-- C3: order creation and line-item insertion are atomic: when the
line-item insert inside the transaction fails (for a submission with at
least one resolved item), the endpoint responds 500 and neither the orders
table nor the order-items table changes — the order insert is rolled back
along with everything else, so no partial order is ever persisted. -/
theorem C3_transaction_atomic_rollback (env : Env) (req : Request) (db : DB) (b : JVal)
    (d : ParsedData)
    (hbody : req.body = some b)
    (hsecret : secretAccepted env req (rawPayloadOf b) = true)
    (hparse : safeParse (rawPayloadOf b) = some d)
    (hfail : env.itemInsertFails = true)
    (hres : resolvedOf db.catalog d ≠ []) :
    (processWebhook env req db).1.status = 500 ∧
    (processWebhook env req db).2.orders = db.orders ∧
    (processWebhook env req db).2.orderItems = db.orderItems := by
  rw [processWebhook_txn_failure env req db b d hbody hsecret hparse hfail hres]
  exact ⟨rfl, rfl, rfl⟩

/-- Witness for C3 at a concrete input: submission e1 resolves one item,
the item insert fails, and the database keeps no trace of the order. -/
theorem C3_transaction_atomic_rollback_witness :
    (processWebhook faultEnv (demoReq "111") demoDB).1.status = 500 ∧
    (processWebhook faultEnv (demoReq "111") demoDB).2.orders = demoDB.orders ∧
    (processWebhook faultEnv (demoReq "111") demoDB).2.orderItems = demoDB.orderItems :=
  C3_transaction_atomic_rollback faultEnv (demoReq "111") demoDB (demoPayload "111") demoParsed
    rfl (by decide) (by rfl) rfl (by decide)

/-- C4 counterexample: a MalformedPayload request is answered 400, but the
parse failure is caught before the audit-log insert (webhook.ts lines
39-42 return before line 45), so no audit-log row of any status is
written: the database is untouched and the log stays empty — refuting the
claim that every inbound request gets a received row and every failure a
terminal failed row. -/
theorem C4_counterexample :
    (processWebhook demoEnv malformedReq demoDB).1.status = 400 ∧
    (processWebhook demoEnv malformedReq demoDB).2.logs = [] ∧
    (processWebhook demoEnv malformedReq demoDB).2 = demoDB :=
  ⟨rfl, rfl, rfl⟩

/-- Updating the freshly appended log row by id touches exactly that row
when every pre-existing id is smaller. -/
theorem updateLog_append (logId : Nat) (g : LogRow → LogRow) (logs : List LogRow) (row : LogRow)
    (hwf : ∀ l ∈ logs, l.id < logId) (hrow : row.id = logId) :
    (logs ++ [row]).map (fun l => if l.id == logId then g l else l)
      = logs ++ [g row] := by
  rw [List.map_append]
  congr 1
  · have hmap : ∀ l ∈ logs, (if l.id == logId then g l else l) = l := by
      intro l hl
      have hne : l.id ≠ logId := Nat.ne_of_lt (hwf l hl)
      simp [hne]
    rw [List.map_congr_left hmap]
    simp
  · simp [hrow]

theorem markLogFailed_afterLog (b : JVal) (db : DB) (msg : String)
    (hwf : ∀ l ∈ db.logs, l.id < db.nextLogId) :
    (markLogFailed db.nextLogId msg (dbAfterLog b db)).logs
      = db.logs ++ [failedRow b db msg] := by
  simp only [markLogFailed, dbAfterLog]
  exact updateLog_append db.nextLogId _ db.logs (receivedRow b db) hwf rfl

/-- After validation the handler terminates in exactly one of two ways:
201 with the log row marked processed, or 500 with the log row marked
failed (with a message). -/
theorem handleParsed_cases (env : Env) (rawPayload : JVal) (logId : Nat) (d : ParsedData)
    (db1 : DB) :
    ((handleParsed env rawPayload logId d db1).1.status = 201 ∧
     (handleParsed env rawPayload logId d db1).2.logs
       = db1.logs.map (fun l => if l.id == logId then { l with status := "processed" } else l)) ∨
    ((handleParsed env rawPayload logId d db1).1.status = 500 ∧
     (handleParsed env rawPayload logId d db1).2.logs
       = db1.logs.map (fun l => if l.id == logId
           then { l with status := "failed",
                         errorMessage := some "order transaction failed" } else l)) := by
  simp only [handleParsed]
  cases ht : runIngestionTxn env (orderValuesOf env rawPayload db1.catalog d)
      (resolvedOf db1.catalog d) db1 with
  | none => right; exact ⟨rfl, rfl⟩
  | some p =>
    left
    rcases p with ⟨o, db2⟩
    have hlogs : db2.logs = db1.logs := runIngestionTxn_logs env _ _ db1 o db2 ht
    refine ⟨rfl, ?_⟩
    show (markLogProcessed logId db2).logs = _
    simp only [markLogProcessed]
    rw [hlogs]

theorem handleParsed_afterLog (env : Env) (db : DB) (b : JVal) (d : ParsedData)
    (hwf : ∀ l ∈ db.logs, l.id < db.nextLogId) :
    ((handleParsed env (rawPayloadOf b) db.nextLogId d (dbAfterLog b db)).1.status = 201 ∧
     (handleParsed env (rawPayloadOf b) db.nextLogId d (dbAfterLog b db)).2.logs
       = db.logs ++ [processedRow b db]) ∨
    ((handleParsed env (rawPayloadOf b) db.nextLogId d (dbAfterLog b db)).1.status = 500 ∧
     (handleParsed env (rawPayloadOf b) db.nextLogId d (dbAfterLog b db)).2.logs
       = db.logs ++ [failedRow b db "order transaction failed"]) := by
  rcases handleParsed_cases env (rawPayloadOf b) db.nextLogId d (dbAfterLog b db) with
    ⟨h201, hlogs⟩ | ⟨h500, hlogs⟩
  · left
    refine ⟨h201, ?_⟩
    rw [hlogs]
    show (db.logs ++ [receivedRow b db]).map _ = _
    exact updateLog_append db.nextLogId _ db.logs (receivedRow b db) hwf rfl
  · right
    refine ⟨h500, ?_⟩
    rw [hlogs]
    show (db.logs ++ [receivedRow b db]).map _ = _
    exact updateLog_append db.nextLogId _ db.logs (receivedRow b db) hwf rfl

/-- C4 amended: for every inbound request whose body decodes, an
audit-log row holding the raw payload is written (before authentication
and validation: it is present in every outcome, including secret
rejection and schema rejection), and exactly that row is updated to the
terminal status — processed on 201, failed with an error message on every
failure response; a request whose body cannot be decoded is answered 400
without any audit-log row (the parse failure precedes the log insert). -/
theorem C4_audit_log_amended (env : Env) (req : Request) (db : DB) (b : JVal)
    (hwf : ∀ l ∈ db.logs, l.id < db.nextLogId)
    (hbody : req.body = some b) :
    (processWebhook env req db).2.logs.length = db.logs.length + 1 ∧
    ∃ last : LogRow,
      (processWebhook env req db).2.logs.getLast? = some last ∧
      last.payload = rawPayloadOf b ∧
      ((processWebhook env req db).1.status = 201 → last.status = "processed") ∧
      ((processWebhook env req db).1.status ≠ 201 →
        last.status = "failed" ∧ last.errorMessage.isSome = true) := by
  simp only [processWebhook, hbody, insertLog]
  by_cases hs : secretAccepted env req (rawPayloadOf b) = true
  · simp only [hs, if_true]
    cases hp : safeParse (rawPayloadOf b) with
    | none =>
      have hlogs := markLogFailed_afterLog b db "schema validation failed" hwf
      refine ⟨?_, failedRow b db "schema validation failed", ?_, rfl, ?_, ?_⟩
      · show (markLogFailed db.nextLogId "schema validation failed" (dbAfterLog b db)).logs.length
            = db.logs.length + 1
        rw [hlogs]
        simp
      · show (markLogFailed db.nextLogId "schema validation failed" (dbAfterLog b db)).logs.getLast?
            = some (failedRow b db "schema validation failed")
        rw [hlogs]
        exact List.getLast?_concat _
      · intro h400
        have h : (400 : Nat) = 201 := h400
        exact absurd h (by decide)
      · intro _
        exact ⟨rfl, rfl⟩
    | some d =>
      rcases handleParsed_afterLog env db b d hwf with ⟨h201, hlogs⟩ | ⟨h500, hlogs⟩
      · refine ⟨?_, processedRow b db, ?_, rfl, ?_, ?_⟩
        · show (handleParsed env (rawPayloadOf b) db.nextLogId d (dbAfterLog b db)).2.logs.length
              = db.logs.length + 1
          rw [hlogs]
          simp
        · show (handleParsed env (rawPayloadOf b) db.nextLogId d (dbAfterLog b db)).2.logs.getLast?
              = some (processedRow b db)
          rw [hlogs]
          exact List.getLast?_concat _
        · intro _
          rfl
        · intro hne
          exact absurd h201 hne
      · refine ⟨?_, failedRow b db "order transaction failed", ?_, rfl, ?_, ?_⟩
        · show (handleParsed env (rawPayloadOf b) db.nextLogId d (dbAfterLog b db)).2.logs.length
              = db.logs.length + 1
          rw [hlogs]
          simp
        · show (handleParsed env (rawPayloadOf b) db.nextLogId d (dbAfterLog b db)).2.logs.getLast?
              = some (failedRow b db "order transaction failed")
          rw [hlogs]
          exact List.getLast?_concat _
        · intro h201b
          have h : (handleParsed env (rawPayloadOf b) db.nextLogId d (dbAfterLog b db)).1.status
              = 201 := h201b
          rw [h500] at h
          exact absurd h (by decide)
        · intro _
          exact ⟨rfl, rfl⟩
  · rw [if_neg hs]
    have hlogs := markLogFailed_afterLog b db "Invalid webhook secret" hwf
    refine ⟨?_, failedRow b db "Invalid webhook secret", ?_, rfl, ?_, ?_⟩
    · show (markLogFailed db.nextLogId "Invalid webhook secret" (dbAfterLog b db)).logs.length
          = db.logs.length + 1
      rw [hlogs]
      simp
    · show (markLogFailed db.nextLogId "Invalid webhook secret" (dbAfterLog b db)).logs.getLast?
          = some (failedRow b db "Invalid webhook secret")
      rw [hlogs]
      exact List.getLast?_concat _
    · intro h401
      have h : (401 : Nat) = 201 := h401
      exact absurd h (by decide)
    · intro _
      exact ⟨rfl, rfl⟩

/-- Witness for C4 at a concrete input: the demo delivery decodes, gets
exactly one audit-log row, and ends with it marked processed. -/
theorem C4_audit_log_amended_witness :
    (processWebhook demoEnv (demoReq "111") demoDB).2.logs.length = demoDB.logs.length + 1 ∧
    ∃ last : LogRow,
      (processWebhook demoEnv (demoReq "111") demoDB).2.logs.getLast? = some last ∧
      last.payload = rawPayloadOf (demoPayload "111") ∧
      ((processWebhook demoEnv (demoReq "111") demoDB).1.status = 201 →
        last.status = "processed") ∧
      ((processWebhook demoEnv (demoReq "111") demoDB).1.status ≠ 201 →
        last.status = "failed" ∧ last.errorMessage.isSome = true) :=
  C4_audit_log_amended demoEnv (demoReq "111") demoDB (demoPayload "111") (by decide) rfl

/-- The synthesized fallback identifier: a falsy (absent, empty-string or
zero) entry_id yields wp- followed by the millisecond clock. -/
theorem entryIdOf_falsy (env : Env) (d : ParsedData)
    (h : ∀ v, d.entry_id = some v → jvTruthy v = false) :
    entryIdOf env d = "wp-" ++ toString env.now := by
  unfold entryIdOf
  cases hv : d.entry_id with
  | none => rfl
  | some v => simp [h v hv]

/-- Distinct timestamp renderings yield distinct synthesized keys. -/
theorem wp_key_ne (a b : String) (h : a ≠ b) : ("wp-" ++ a : String) ≠ ("wp-" ++ b : String) := by
  intro he
  apply h
  have hd := congrArg String.data he
  simp only [String.data_append] at hd
  have hcancel := List.append_cancel_left hd
  cases a
  cases b
  exact congrArg String.mk hcancel

/-- A successful run appends exactly one order row keyed by the computed
external identifier, and leaves the catalog unchanged. -/
theorem processWebhook_appends (env : Env) (req : Request) (db : DB) (b : JVal) (d : ParsedData)
    (hbody : req.body = some b)
    (hsecret : secretAccepted env req (rawPayloadOf b) = true)
    (hparse : safeParse (rawPayloadOf b) = some d)
    (hok : env.itemInsertFails = false)
    (hfresh : ∀ o ∈ db.orders, o.wpEntryId ≠ entryIdOf env d) :
    (processWebhook env req db).2.orders
      = db.orders
        ++ [newOrderRow db.nextOrderId (orderValuesOf env (rawPayloadOf b) db.catalog d)] ∧
    (processWebhook env req db).2.catalog = db.catalog := by
  rw [processWebhook_success env req db b d hbody hsecret hparse hok hfresh]
  exact ⟨rfl, rfl⟩

/-- C10: a submission whose entry_id is absent or falsy gets the
synthesized external identifier wp- followed by the current millisecond
timestamp, which is used as the upsert key; therefore redeliveries of such
payloads (arriving at clock instants with distinct renderings) are never
deduplicated against each other — the second delivery inserts a second
order row with a different key instead of updating the first. -/
theorem C10_entry_id_fallback (env1 env2 : Env) (req : Request) (db : DB) (b : JVal)
    (d : ParsedData)
    (hbody : req.body = some b)
    (hparse : safeParse (rawPayloadOf b) = some d)
    (hfalsy : ∀ v, d.entry_id = some v → jvTruthy v = false)
    (hs1 : secretAccepted env1 req (rawPayloadOf b) = true)
    (hs2 : secretAccepted env2 req (rawPayloadOf b) = true)
    (hok1 : env1.itemInsertFails = false) (hok2 : env2.itemInsertFails = false)
    (hne : toString env1.now ≠ toString env2.now)
    (hfresh1 : ∀ o ∈ db.orders, o.wpEntryId ≠ "wp-" ++ toString env1.now)
    (hfresh2 : ∀ o ∈ db.orders, o.wpEntryId ≠ "wp-" ++ toString env2.now) :
    entryIdOf env1 d = "wp-" ++ toString env1.now ∧
    ∃ o1 o2 : OrderRow,
      ((processWebhook env2 req (processWebhook env1 req db).2).2).orders
        = db.orders ++ [o1] ++ [o2] ∧
      o1.wpEntryId = "wp-" ++ toString env1.now ∧
      o2.wpEntryId = "wp-" ++ toString env2.now ∧
      o1.wpEntryId ≠ o2.wpEntryId ∧
      ((processWebhook env2 req (processWebhook env1 req db).2).2).orders.length
        = db.orders.length + 2 := by
  have hk1 := entryIdOf_falsy env1 d hfalsy
  have hk2 := entryIdOf_falsy env2 d hfalsy
  have hfr1 : ∀ o ∈ db.orders, o.wpEntryId ≠ entryIdOf env1 d := by
    intro o ho
    rw [hk1]
    exact hfresh1 o ho
  obtain ⟨hA_orders, hA_cat⟩ :=
    processWebhook_appends env1 req db b d hbody hs1 hparse hok1 hfr1
  have hfr2A : ∀ o ∈ (processWebhook env1 req db).2.orders, o.wpEntryId ≠ entryIdOf env2 d := by
    intro o ho
    rw [hA_orders] at ho
    rw [hk2]
    rcases List.mem_append.mp ho with ho | ho
    · exact hfresh2 o ho
    · have heq : o = newOrderRow db.nextOrderId (orderValuesOf env1 (rawPayloadOf b) db.catalog d) :=
        List.mem_singleton.mp ho
      subst heq
      show entryIdOf env1 d ≠ "wp-" ++ toString env2.now
      rw [hk1]
      exact wp_key_ne _ _ hne
  obtain ⟨hB_orders, _⟩ :=
    processWebhook_appends env2 req (processWebhook env1 req db).2 b d hbody hs2 hparse hok2 hfr2A
  refine ⟨hk1,
    newOrderRow db.nextOrderId (orderValuesOf env1 (rawPayloadOf b) db.catalog d),
    newOrderRow (processWebhook env1 req db).2.nextOrderId
      (orderValuesOf env2 (rawPayloadOf b) (processWebhook env1 req db).2.catalog d),
    ?_, ?_, ?_, ?_, ?_⟩
  · rw [hB_orders, hA_orders]
  · exact hk1
  · exact hk2
  · rw [show (newOrderRow db.nextOrderId
        (orderValuesOf env1 (rawPayloadOf b) db.catalog d)).wpEntryId
        = "wp-" ++ toString env1.now from hk1,
      show (newOrderRow (processWebhook env1 req db).2.nextOrderId
        (orderValuesOf env2 (rawPayloadOf b) (processWebhook env1 req db).2.catalog d)).wpEntryId
        = "wp-" ++ toString env2.now from hk2]
    exact wp_key_ne _ _ hne
  · rw [hB_orders, hA_orders]
    simp

/-- Witness for C9 at a concrete input: a random value with six base-36
fractional digits yields an 8-digit date component and an exactly
5-character uppercase base-36 suffix. -/
theorem C9_order_number_shape_witness :
    ∃ suf : String,
      generateOrderNumber 2025 2 8 [10, 3, 15, 7, 20, 11]
        = "ORD-" ++ (pad4 2025 ++ pad2c 2 ++ pad2c 8) ++ "-" ++ suf ∧
      (pad4 2025 ++ pad2c 2 ++ pad2c 8).length = 8 ∧
      (∀ c ∈ (pad4 2025 ++ pad2c 2 ++ pad2c 8).data, c.isDigit = true) ∧
      suf.length = min 5 ([10, 3, 15, 7, 20, 11] : List Nat).length ∧
      (∀ c ∈ suf.data, isB36Upper c = true) ∧
      (5 ≤ ([10, 3, 15, 7, 20, 11] : List Nat).length → suf.length = 5) :=
  C9_order_number_shape 2025 2 8 [10, 3, 15, 7, 20, 11] (by decide)

/-- Witness for C10 at a concrete input: the same entry-id-less payload
delivered at clock values 1000 and 2000 synthesizes key wp-1000 for the
first delivery and ends with two order rows instead of one. -/
theorem C10_entry_id_fallback_witness :
    entryIdOf demoEnv noIdParsed = "wp-1000" ∧
    ((processWebhook demoEnv2 noIdReq (processWebhook demoEnv noIdReq demoDB).2).2).orders.length
      = 2 := by
  have h := C10_entry_id_fallback demoEnv demoEnv2 noIdReq demoDB noIdPayload noIdParsed
    rfl (by rfl) (fun v hv => Option.noConfusion hv) (by decide) (by decide) rfl rfl
    (by decide) (by decide) (by decide)
  obtain ⟨hk, o1, o2, _, _, _, _, hlen⟩ := h
  refine ⟨hk.trans (by decide), ?_⟩
  simpa using hlen

end DashboardApi

